import Mathlib

/-!
# Veyon: session manager, LDAP network object directory, computer control interface

A shallow embedding of

* `plugins/platform/windows/WtsSessionManager.cpp`
* `plugins/ldap/common/LdapNetworkObjectDirectory.cpp`
* `core/src/ComputerControlInterface.h`

Operating-system calls, the LDAP client and Qt library routines are taken as
parameters (fields of an environment record). The functions of the three files
follow the C++ statement by statement; what they call in the base class
`NetworkObjectDirectory` and in `NetworkObject`, which are not among the three
files, is modelled, and each such definition says so.
-/

/-! ## WtsSessionManager -/

namespace WtsSessionManager

/-- Session identifiers are `DWORD` values. -/
abbrev SessionId := Nat

/-- Process identifiers are `DWORD` values. -/
abbrev ProcessId := Nat

/-- The result type of `activeSessions`. -/
abbrev SessionList := List SessionId

/-- The kind of information `querySessionInformation` is asked for. The switch in
the source names `UserName` and `DomainName`; every other value of the enum
is `other`. -/
inductive SessionInfo where
  | UserName
  | DomainName
  | other (code : Nat)
  deriving DecidableEq, Repr

/-- The values of `WTS_INFO_CLASS` the function uses. -/
inductive WTS_INFO_CLASS where
  | WTSInitialProgram
  | WTSUserName
  | WTSDomainName
  deriving DecidableEq, Repr

/-- The connection state of a session, `WTS_CONNECTSTATE_CLASS`. -/
inductive WTS_CONNECTSTATE_CLASS where
  | WTSActive
  | WTSConnected
  | WTSConnectQuery
  | WTSShadow
  | WTSDisconnected
  | WTSIdle
  | WTSListen
  | WTSReset
  | WTSDown
  | WTSInit
  deriving DecidableEq, Repr

/-- One entry of the array `WTSEnumerateSessions` fills. -/
structure WTS_SESSION_INFO where
  SessionId : SessionId
  pWinStationName : String
  State : WTS_CONNECTSTATE_CLASS
  deriving DecidableEq, Repr

/-- One entry of the array `WTSEnumerateProcesses` fills (the fields the
functions here read). -/
structure WTS_PROCESS_INFO where
  SessionId : SessionId
  ProcessId : ProcessId
  pProcessName : String
  deriving DecidableEq, Repr

/-- What the functions get from outside: the two sentinel constants of the class
declaration, the answers of the operating system (`none` is a failed call) and
Qt's case-insensitive string comparison (zero means equal). -/
structure Platform where
  InvalidSession : SessionId
  InvalidProcess : ProcessId
  WTSEnumerateSessions : Option (List WTS_SESSION_INFO)
  WTSQuerySessionInformation : SessionId → WTS_INFO_CLASS → Option String
  WTSEnumerateProcesses : Option (List WTS_PROCESS_INFO)
  compareCaseInsensitive : String → String → Int

/-- The test of the `if` inside the loop of `activeSessions`. -/
def isActiveOrMultiseat (os : Platform) (session : WTS_SESSION_INFO) : Bool :=
  session.State == WTS_CONNECTSTATE_CLASS.WTSActive ||
    os.compareCaseInsensitive session.pWinStationName "multiseat" == 0

/-- The `for` loop of `activeSessions`: `sessionList` is the list built so far,
the first argument the sessions from `sessionIndex` on. -/
def activeSessionsLoop (os : Platform) :
    List WTS_SESSION_INFO → SessionList → SessionList
  | [], sessionList => sessionList
  | session :: rest, sessionList =>
    if isActiveOrMultiseat os session then
      activeSessionsLoop os rest (sessionList ++ [session.SessionId])
    else
      activeSessionsLoop os rest sessionList

/-- `WtsSessionManager::activeSessions`. -/
def activeSessions (os : Platform) : SessionList :=
  match os.WTSEnumerateSessions with
  | none => []
  | some sessions => activeSessionsLoop os sessions []

/-- `WtsSessionManager::querySessionInformation`. -/
def querySessionInformation (os : Platform) (sessionId : SessionId)
    (sessionInfo : SessionInfo) : String :=
  if sessionId = os.InvalidSession then
    ""
  else
    let infoClass : Option WTS_INFO_CLASS :=
      match sessionInfo with
      | SessionInfo.UserName => some WTS_INFO_CLASS.WTSUserName
      | SessionInfo.DomainName => some WTS_INFO_CLASS.WTSDomainName
      | SessionInfo.other _ => none
    match infoClass with
    | none => ""
    | some infoClass =>
      match os.WTSQuerySessionInformation sessionId infoClass with
      | some pBuffer => pBuffer
      | none => ""

/-- The `for` loop of `findWinlogonProcessId`: `pid` is the value the variable
holds when the loop reaches the given processes. -/
def findWinlogonLoop (os : Platform) (sessionId : SessionId) :
    List WTS_PROCESS_INFO → ProcessId → ProcessId
  | [], pid => pid
  | process :: rest, pid =>
    if process.ProcessId = 0 then
      findWinlogonLoop os sessionId rest pid
    else if os.compareCaseInsensitive "winlogon.exe" process.pProcessName = 0 ∧
        sessionId = process.SessionId then
      process.ProcessId
    else
      findWinlogonLoop os sessionId rest pid

/-- `WtsSessionManager::findWinlogonProcessId`. -/
def findWinlogonProcessId (os : Platform) (sessionId : SessionId) : ProcessId :=
  if sessionId = os.InvalidSession then
    os.InvalidProcess
  else
    match os.WTSEnumerateProcesses with
    | none => os.InvalidProcess
    | some processInfo => findWinlogonLoop os sessionId processInfo os.InvalidProcess

/-- The three conditions under which the loop of `findWinlogonProcessId` takes a
process. -/
def isWinlogonOf (os : Platform) (sessionId : SessionId) (process : WTS_PROCESS_INFO) : Bool :=
  decide (process.ProcessId ≠ 0) &&
    decide (os.compareCaseInsensitive "winlogon.exe" process.pProcessName = 0) &&
    decide (sessionId = process.SessionId)

/-- A comparison for concrete runs: characters are compared after mapping the
letters `A` to `Z` to lower case. -/
def compareLowered (a b : String) : Int :=
  if a.data.map Char.toLower = b.data.map Char.toLower then 0 else 1

/-- A machine for concrete runs: session 7 is not answered by the system, the
other sessions have user `alice` in domain `LAB`. -/
def samplePlatform : Platform where
  InvalidSession := 4294967295
  InvalidProcess := 4294967295
  WTSEnumerateSessions := some
    [ { SessionId := 0, pWinStationName := "Services", State := WTS_CONNECTSTATE_CLASS.WTSDisconnected },
      { SessionId := 1, pWinStationName := "Console", State := WTS_CONNECTSTATE_CLASS.WTSActive },
      { SessionId := 2, pWinStationName := "MultiSeat", State := WTS_CONNECTSTATE_CLASS.WTSConnected },
      { SessionId := 3, pWinStationName := "RDP-Tcp#0", State := WTS_CONNECTSTATE_CLASS.WTSActive },
      { SessionId := 65536, pWinStationName := "RDP-Tcp", State := WTS_CONNECTSTATE_CLASS.WTSListen } ]
  WTSQuerySessionInformation := fun sessionId infoClass =>
    if sessionId = 7 then none
    else match infoClass with
      | WTS_INFO_CLASS.WTSUserName => some "alice"
      | WTS_INFO_CLASS.WTSDomainName => some "LAB"
      | WTS_INFO_CLASS.WTSInitialProgram => some ""
  WTSEnumerateProcesses := some
    [ { SessionId := 0, ProcessId := 0, pProcessName := "winlogon.exe" },
      { SessionId := 0, ProcessId := 4, pProcessName := "System" },
      { SessionId := 2, ProcessId := 612, pProcessName := "WinLogon.EXE" },
      { SessionId := 1, ProcessId := 700, pProcessName := "winlogon.exe" },
      { SessionId := 1, ProcessId := 704, pProcessName := "winlogon.exe" } ]
  compareCaseInsensitive := compareLowered

end WtsSessionManager

/-! ## LdapNetworkObjectDirectory -/

/-- The type of a network object. The source names `None`, `Location` and
`Host` and builds the root object; every other value of the enum is
`other`. -/
inductive NetworkObjectType where
  | None
  | Root
  | Location
  | Host
  | other (code : Nat)
  deriving DecidableEq, Repr

/-- The property a query selects by or an object is asked for. -/
inductive NetworkObjectProperty where
  | None
  | Name
  | HostAddress
  | MacAddress
  | DirectoryAddress
  | other (code : Nat)
  deriving DecidableEq, Repr

/-- The value a query is made with; the source reads it through `toString()`. -/
structure QVariant where
  toString : String
  deriving DecidableEq, Repr

/-- The property map of a network object: keys are the strings `propertyKey`
gives, in the order they were first written. -/
abbrev NetworkObjectProperties := List (String × String)

/-- The assignment `properties[key] = value` of the map: the value of an existing
key is replaced, a new key is added. -/
def NetworkObjectProperties.set :
    NetworkObjectProperties → String → String → NetworkObjectProperties
  | [], key, value => [(key, value)]
  | (k, v) :: rest, key, value =>
    if k = key then (k, value) :: rest
    else (k, v) :: NetworkObjectProperties.set rest key value

/-- The test `properties.contains(key)`. -/
def NetworkObjectProperties.containsKey (properties : NetworkObjectProperties)
    (key : String) : Bool :=
  properties.any (fun entry => decide (entry.1 = key))

/-- The value stored under a key, `none` when the key is absent. -/
def NetworkObjectProperties.valueOf :
    NetworkObjectProperties → String → Option String
  | [], _ => none
  | (k, v) :: rest, key =>
    if k = key then some v else NetworkObjectProperties.valueOf rest key

/-- A network object as the directory builds it: type, name and property map. -/
structure NetworkObject where
  type : NetworkObjectType
  name : String
  properties : NetworkObjectProperties
  deriving DecidableEq, Repr

/-- A list of network objects, the result type of the queries. -/
abbrev NetworkObjectList := List NetworkObject

/-- The object `NetworkObject{directory, type}` with no name and no property. -/
def NetworkObject.ofType (type : NetworkObjectType) : NetworkObject :=
  { type := type, name := "", properties := [] }

/-- The object `NetworkObject{directory, type, name}` with no property. -/
def NetworkObject.named (type : NetworkObjectType) (name : String) : NetworkObject :=
  { type := type, name := name, properties := [] }

/-- Modelled from the spec: `NetworkObject::isValid` is declared outside the
sources at hand; an object is invalid exactly when its type is `None`. -/
def NetworkObject.isValid (object : NetworkObject) : Bool :=
  decide (object.type ≠ NetworkObjectType.None)

/-- Modelled from the spec: `NetworkObject::property` followed by `toString()`,
declared outside the sources at hand; the string stored under the key of the
property, the empty string when there is none. -/
def NetworkObject.property (propertyKey : NetworkObjectProperty → String)
    (object : NetworkObject) (property : NetworkObjectProperty) : String :=
  (object.properties.valueOf (propertyKey property)).getD ""

/-- The search scope of an LDAP query. -/
inductive LdapScope where
  | Base
  | One
  | Sub
  deriving DecidableEq, Repr

/-- One LDAP entry: attribute names with their values. -/
abbrev LdapObject := List (String × List String)

/-- The entries a query returns, keyed by distinguished name, in key order. -/
abbrev LdapObjects := List (String × LdapObject)

/-- The read `object[attribute].value( 0 )` of a constant entry: the first value
of the attribute, the empty string when the attribute is absent or has no
value. -/
def LdapObject.firstValue : LdapObject → String → String
  | [], _ => ""
  | (attributeName, values) :: rest, wanted =>
    if attributeName = wanted then values.headD "" else LdapObject.firstValue rest wanted

/-- The LDAP client: the name of the common-name attribute and the query. -/
structure LdapClient where
  cn : String
  queryObjects : String → List String → String → LdapScope → LdapObjects

/-- The LDAP directory the network object directory reads: the configured
attribute names and filter, the client and the answers of the look-ups. -/
structure LdapDirectory where
  computerDisplayNameAttribute : String
  computerHostNameAttribute : String
  computerMacAddressAttribute : String
  computersFilter : String
  client : LdapClient
  computerLocations : List String
  computerLocationEntries : String → List String
  computersByHostName : String → List String
  computersByDisplayName : String → List String
  hostToLdapFormat : String → String

namespace LdapNetworkObjectDirectory

/-- The attribute the display name is read from: the configured one, `cn` when
none is configured. -/
def displayNameAttribute (ldapDirectory : LdapDirectory) : String :=
  if ldapDirectory.computerDisplayNameAttribute = "" then ldapDirectory.client.cn
  else ldapDirectory.computerDisplayNameAttribute

/-- The attribute the host name is read from: the configured one, `cn` when none
is configured. -/
def hostNameAttribute (ldapDirectory : LdapDirectory) : String :=
  if ldapDirectory.computerHostNameAttribute = "" then ldapDirectory.client.cn
  else ldapDirectory.computerHostNameAttribute

/-- The attribute list `computerToObject` queries for. -/
def computerAttributes (ldapDirectory : LdapDirectory) : List String :=
  let attributes :=
    [ldapDirectory.client.cn, displayNameAttribute ldapDirectory, hostNameAttribute ldapDirectory]
  let attributes :=
    if ldapDirectory.computerMacAddressAttribute ≠ "" then
      attributes ++ [ldapDirectory.computerMacAddressAttribute]
    else attributes
  attributes.eraseDups

/-- The display name `computerToObject` gives an entry. -/
def displayNameOf (ldapDirectory : LdapDirectory) (computer : LdapObject) : String :=
  let displayName := computer.firstValue (displayNameAttribute ldapDirectory)
  if displayName = "" then computer.firstValue ldapDirectory.client.cn else displayName

/-- The host name `computerToObject` gives an entry. -/
def hostNameOf (ldapDirectory : LdapDirectory) (computer : LdapObject) : String :=
  let hostName := computer.firstValue (hostNameAttribute ldapDirectory)
  if hostName = "" then computer.firstValue ldapDirectory.client.cn else hostName

/-- The property map `computerToObject` builds for the entry `computer` found
under `computerDn`. -/
def hostProperties (propertyKey : NetworkObjectProperty → String)
    (ldapDirectory : LdapDirectory) (computerDn : String) (computer : LdapObject) :
    NetworkObjectProperties :=
  let properties : NetworkObjectProperties := []
  let properties :=
    properties.set (propertyKey NetworkObjectProperty.HostAddress) (hostNameOf ldapDirectory computer)
  let properties :=
    if ldapDirectory.computerMacAddressAttribute ≠ "" then
      properties.set (propertyKey NetworkObjectProperty.MacAddress)
        (computer.firstValue ldapDirectory.computerMacAddressAttribute)
    else properties
  properties.set (propertyKey NetworkObjectProperty.DirectoryAddress) computerDn

/-- The base-scope look-up `computerToObject` makes for a distinguished name. -/
def lookupComputer (ldapDirectory : LdapDirectory) (computerDn : String) : LdapObjects :=
  ldapDirectory.client.queryObjects computerDn (computerAttributes ldapDirectory)
    ldapDirectory.computersFilter LdapScope.Base

/-- `LdapNetworkObjectDirectory::computerToObject`. -/
def computerToObject (propertyKey : NetworkObjectProperty → String)
    (ldapDirectory : LdapDirectory) (computerDn : String) : NetworkObject :=
  match lookupComputer ldapDirectory computerDn with
  | (computerDn, computer) :: _ =>
    { type := NetworkObjectType.Host
      name := displayNameOf ldapDirectory computer
      properties := hostProperties propertyKey ldapDirectory computerDn computer }
  | [] => NetworkObject.ofType NetworkObjectType.None

/-- The `for` loop of `queryHosts`: `hostObjects` is the list built so far. -/
def queryHostsLoop (propertyKey : NetworkObjectProperty → String)
    (ldapDirectory : LdapDirectory) : List String → NetworkObjectList → NetworkObjectList
  | [], hostObjects => hostObjects
  | computer :: rest, hostObjects =>
    let hostObject := computerToObject propertyKey ldapDirectory computer
    if hostObject.isValid then
      queryHostsLoop propertyKey ldapDirectory rest (hostObjects ++ [hostObject])
    else
      queryHostsLoop propertyKey ldapDirectory rest hostObjects

/-- The `switch` of `queryHosts`: the distinguished names the directory returns,
`none` where the function returns the empty list at once. -/
def queryHostsComputers (ldapDirectory : LdapDirectory)
    (property : NetworkObjectProperty) (value : QVariant) : Option (List String) :=
  match property with
  | NetworkObjectProperty.None => some (ldapDirectory.computersByHostName "")
  | NetworkObjectProperty.Name => some (ldapDirectory.computersByDisplayName value.toString)
  | NetworkObjectProperty.HostAddress =>
    let hostName := ldapDirectory.hostToLdapFormat value.toString
    if hostName = "" then none
    else some (ldapDirectory.computersByHostName hostName)
  | _ => none

/-- `LdapNetworkObjectDirectory::queryHosts`. -/
def queryHosts (propertyKey : NetworkObjectProperty → String)
    (ldapDirectory : LdapDirectory) (property : NetworkObjectProperty) (value : QVariant) :
    NetworkObjectList :=
  match queryHostsComputers ldapDirectory property value with
  | none => []
  | some computers => queryHostsLoop propertyKey ldapDirectory computers []

/-- Modelled from the spec: `NetworkObject::operator==` compares identifiers that
are computed outside the sources at hand. Two objects stand for the same node
of the tree when they have the same type and, for hosts, the same directory
address, for every other type the same name: the keys by which `update` and
`updateLocation` themselves decide which nodes the directory still reports. -/
def sameObject (propertyKey : NetworkObjectProperty → String) (a b : NetworkObject) : Bool :=
  decide (a.type = b.type) &&
    (if a.type = NetworkObjectType.Host then
      decide (a.property propertyKey NetworkObjectProperty.DirectoryAddress =
        b.property propertyKey NetworkObjectProperty.DirectoryAddress)
    else decide (a.name = b.name))

/-- Modelled from the spec: the object tree of `NetworkObjectDirectory`, which is
declared outside the sources at hand: for each parent object the list of its
children. -/
abbrev ObjectTree := List (NetworkObject × NetworkObjectList)

/-- Modelled from the spec: `NetworkObjectDirectory::rootObject`, declared outside
the sources at hand: the object of type `Root`. -/
def rootObject : NetworkObject :=
  NetworkObject.ofType NetworkObjectType.Root

/-- Modelled from the spec: the children the tree holds for a parent, none when
the parent has no entry. -/
def childrenOf (propertyKey : NetworkObjectProperty → String) :
    ObjectTree → NetworkObject → NetworkObjectList
  | [], _ => []
  | (node, children) :: rest, parent =>
    if sameObject propertyKey node parent then children
    else childrenOf propertyKey rest parent

/-- Modelled from the spec: the tree with the children of a parent replaced by
the given list; a parent without an entry gets one. -/
def setChildren (propertyKey : NetworkObjectProperty → String) :
    ObjectTree → NetworkObject → NetworkObjectList → ObjectTree
  | [], parent, children => [(parent, children)]
  | (node, old) :: rest, parent, children =>
    if sameObject propertyKey node parent then (node, children) :: rest
    else (node, old) :: setChildren propertyKey rest parent children

/-- Modelled from the spec: insert-or-replace in a list of children: the first
child that stands for the same node is replaced by the object, and the object
is appended when there is none. -/
def insertOrReplace (propertyKey : NetworkObjectProperty → String) (object : NetworkObject) :
    NetworkObjectList → NetworkObjectList
  | [] => [object]
  | child :: rest =>
    if sameObject propertyKey child object then object :: rest
    else child :: insertOrReplace propertyKey object rest

/-- Modelled from the spec: `NetworkObjectDirectory::addOrUpdateObject`, defined
outside the sources at hand: insert-or-replace of the object under the given
parent. -/
def addOrUpdateObject (propertyKey : NetworkObjectProperty → String) (tree : ObjectTree)
    (networkObject parent : NetworkObject) : ObjectTree :=
  setChildren propertyKey tree parent
    (insertOrReplace propertyKey networkObject (childrenOf propertyKey tree parent))

/-- Modelled from the spec: `NetworkObjectDirectory::removeObjects`, defined
outside the sources at hand: removal of the children of the parent that
satisfy the predicate. -/
def removeObjects (propertyKey : NetworkObjectProperty → String) (tree : ObjectTree)
    (parent : NetworkObject) (removeObjectFilter : NetworkObject → Bool) : ObjectTree :=
  setChildren propertyKey tree parent
    ((childrenOf propertyKey tree parent).filter (fun object => !removeObjectFilter object))

/-- The `for` loop of `updateLocation` over the computers from the given one
on. -/
def updateLocationLoop (propertyKey : NetworkObjectProperty → String)
    (ldapDirectory : LdapDirectory) (locationObject : NetworkObject) :
    List String → ObjectTree → ObjectTree
  | [], tree => tree
  | computer :: rest, tree =>
    let hostObject := computerToObject propertyKey ldapDirectory computer
    if hostObject.type = NetworkObjectType.Host then
      updateLocationLoop propertyKey ldapDirectory locationObject rest
        (addOrUpdateObject propertyKey tree hostObject locationObject)
    else
      updateLocationLoop propertyKey ldapDirectory locationObject rest tree

/-- `LdapNetworkObjectDirectory::updateLocation`. -/
def updateLocation (propertyKey : NetworkObjectProperty → String)
    (ldapDirectory : LdapDirectory) (tree : ObjectTree) (locationObject : NetworkObject) :
    ObjectTree :=
  let computers := ldapDirectory.computerLocationEntries locationObject.name
  let tree := updateLocationLoop propertyKey ldapDirectory locationObject computers tree
  removeObjects propertyKey tree locationObject (fun object =>
    decide (object.type = NetworkObjectType.Host) &&
      !computers.contains (object.property propertyKey NetworkObjectProperty.DirectoryAddress))

/-- The `for` loop of `update` over the locations from the given one on. -/
def updateLoop (propertyKey : NetworkObjectProperty → String)
    (ldapDirectory : LdapDirectory) : List String → ObjectTree → ObjectTree
  | [], tree => tree
  | location :: rest, tree =>
    let locationObject := NetworkObject.named NetworkObjectType.Location location
    let tree := addOrUpdateObject propertyKey tree locationObject rootObject
    updateLoop propertyKey ldapDirectory rest
      (updateLocation propertyKey ldapDirectory tree locationObject)

/-- `LdapNetworkObjectDirectory::update`. -/
def update (propertyKey : NetworkObjectProperty → String)
    (ldapDirectory : LdapDirectory) (tree : ObjectTree) : ObjectTree :=
  let locations := ldapDirectory.computerLocations
  let tree := updateLoop propertyKey ldapDirectory locations tree
  removeObjects propertyKey tree rootObject (fun object =>
    decide (object.type = NetworkObjectType.Location) && !locations.contains object.name)

/-- The names of the location objects in a list of children. -/
def locationNames (children : NetworkObjectList) : List String :=
  (children.filter (fun object => decide (object.type = NetworkObjectType.Location))).map
    NetworkObject.name

/-- The names of the location objects directly under the root. -/
def rootLocationNames (propertyKey : NetworkObjectProperty → String) (tree : ObjectTree) :
    List String :=
  locationNames (childrenOf propertyKey tree rootObject)

/-- Property keys for concrete runs. -/
def sampleKey : NetworkObjectProperty → String
  | NetworkObjectProperty.None => "None"
  | NetworkObjectProperty.Name => "Name"
  | NetworkObjectProperty.HostAddress => "HostAddress"
  | NetworkObjectProperty.MacAddress => "MacAddress"
  | NetworkObjectProperty.DirectoryAddress => "DirectoryAddress"
  | NetworkObjectProperty.other _ => "Other"

/-- A client for concrete runs: two computers are known, each entry carrying its
common name and hardware address. -/
def sampleClient : LdapClient where
  cn := "cn"
  queryObjects := fun dn _ _ _ =>
    if dn = "cn=pc1,ou=lab" then
      [("cn=pc1,ou=lab", [("cn", ["pc1"]), ("macAddress", ["00:11:22:33:44:55"])])]
    else if dn = "cn=pc2,ou=lab" then
      [("cn=pc2,ou=lab", [("cn", ["pc2"]), ("macAddress", ["00:11:22:33:44:66"])])]
    else []

/-- A directory for concrete runs in which no hardware address attribute is
configured. -/
def sampleDirectory : LdapDirectory where
  computerDisplayNameAttribute := ""
  computerHostNameAttribute := ""
  computerMacAddressAttribute := ""
  computersFilter := ""
  client := sampleClient
  computerLocations := ["lab", "library"]
  computerLocationEntries := fun location =>
    if location = "lab" then ["cn=pc1,ou=lab", "cn=gone,ou=lab", "cn=pc2,ou=lab"] else []
  computersByHostName := fun hostName =>
    if hostName = "" then ["cn=pc1,ou=lab", "cn=gone,ou=lab", "cn=pc2,ou=lab"]
    else if hostName = "pc2" then ["cn=pc2,ou=lab"] else []
  computersByDisplayName := fun name => if name = "pc1" then ["cn=pc1,ou=lab"] else []
  hostToLdapFormat := fun host => if host = "10.0.0.2" then "pc2" else ""

/-- The sample directory with the hardware address attribute configured. -/
def sampleDirectoryWithMac : LdapDirectory :=
  { sampleDirectory with computerMacAddressAttribute := "macAddress" }

/-- A tree for concrete runs: the root holds a location the directory no longer
reports, a location it still reports and a host. -/
def sampleTree : ObjectTree :=
  [ (rootObject,
      [ NetworkObject.named NetworkObjectType.Location "attic",
        NetworkObject.named NetworkObjectType.Location "lab",
        NetworkObject.named NetworkObjectType.Host "stray" ]),
    (NetworkObject.named NetworkObjectType.Location "lab",
      [ { type := NetworkObjectType.Host, name := "old",
          properties := [("DirectoryAddress", "cn=old,ou=lab")] } ]) ]

end LdapNetworkObjectDirectory

/-! ## ComputerControlInterface -/

namespace Feature

/-- A feature identifier is a `QUuid`, a 128-bit value; zero is the null
identifier. -/
abbrev Uid := Nat

end Feature

/-- The list type of the active features. -/
abbrev FeatureUidList := List Feature.Uid

/-- A feature message: the feature it belongs to and a command with
arguments. -/
structure FeatureMessage where
  featureUid : Feature.Uid
  command : Int
  arguments : List (String × String)
  deriving DecidableEq, Repr

/-- The computer an interface controls. -/
structure Computer where
  name : String
  hostAddress : String
  macAddress : String
  location : String
  deriving DecidableEq, Repr

/-- A size in pixels; the default-constructed size is `(-1, -1)`. -/
structure QSize where
  width : Int
  height : Int
  deriving DecidableEq, Repr

/-- A timer as far as the interface sets it: running or not, and its interval in
milliseconds. -/
structure QTimer where
  active : Bool
  interval : Int
  deriving DecidableEq, Repr

/-- The connection object the interface points to: the messages handed to it
that are still to be sent. -/
structure VeyonConnection where
  messageQueue : List FeatureMessage
  deriving DecidableEq, Repr

namespace ComputerControlInterface

/-- The update mode of an interface. -/
inductive UpdateMode where
  | Disabled
  | Basic
  | Monitoring
  | Live
  deriving DecidableEq, Repr

/-- The connection state, `VncConnection::State`, by its enumeration value. -/
abbrev State := Nat

/-- The constant `ComputerControlInterface::ConnectionWatchdogTimeout`. -/
def ConnectionWatchdogTimeout : Int := 10000

/-- The constant `ComputerControlInterface::UpdateIntervalDisabled`. -/
def UpdateIntervalDisabled : Int := 5000

end ComputerControlInterface

/-- The data members of `ComputerControlInterface`; `m_connection` is `none` for
the null pointer. -/
structure ComputerControlInterface where
  m_computer : Computer
  m_port : Int
  m_updateMode : ComputerControlInterface.UpdateMode
  m_state : ComputerControlInterface.State
  m_userLoginName : String
  m_userFullName : String
  m_userSessionId : Int
  m_activeFeatures : FeatureUidList
  m_designatedModeFeature : Feature.Uid
  m_scaledScreenSize : QSize
  m_timestamp : Int
  m_connection : Option VeyonConnection
  m_connectionWatchdogTimer : QTimer
  m_userUpdateTimer : QTimer
  m_activeFeaturesUpdateTimer : QTimer
  m_groups : List String
  deriving DecidableEq, Repr

namespace ComputerControlInterface

/-- The getter `connection()`. -/
def connection (self : ComputerControlInterface) : Option VeyonConnection :=
  self.m_connection

/-- The getter `computer()`. -/
def computer (self : ComputerControlInterface) : Computer :=
  self.m_computer

/-- The getter `state()`. -/
def state (self : ComputerControlInterface) : State :=
  self.m_state

/-- The getter `scaledScreenSize()`. -/
def scaledScreenSize (self : ComputerControlInterface) : QSize :=
  self.m_scaledScreenSize

/-- The getter `timestamp()`. -/
def timestamp (self : ComputerControlInterface) : Int :=
  self.m_timestamp

/-- The getter `userLoginName()`. -/
def userLoginName (self : ComputerControlInterface) : String :=
  self.m_userLoginName

/-- The getter `userFullName()`. -/
def userFullName (self : ComputerControlInterface) : String :=
  self.m_userFullName

/-- The getter `userSessionId()`. -/
def userSessionId (self : ComputerControlInterface) : Int :=
  self.m_userSessionId

/-- The getter `activeFeatures()`. -/
def activeFeatures (self : ComputerControlInterface) : FeatureUidList :=
  self.m_activeFeatures

/-- The getter `designatedModeFeature()`. -/
def designatedModeFeature (self : ComputerControlInterface) : Feature.Uid :=
  self.m_designatedModeFeature

/-- The setter `setDesignatedModeFeature`. -/
def setDesignatedModeFeature (self : ComputerControlInterface)
    (designatedModeFeature : Feature.Uid) : ComputerControlInterface :=
  { self with m_designatedModeFeature := designatedModeFeature }

/-- The getter `groups()`. -/
def groups (self : ComputerControlInterface) : List String :=
  self.m_groups

/-- The setter `setGroups`. -/
def setGroups (self : ComputerControlInterface) (groups : List String) :
    ComputerControlInterface :=
  { self with m_groups := groups }

/-- The getter `updateMode()`. -/
def updateMode (self : ComputerControlInterface) : UpdateMode :=
  self.m_updateMode

/-- An interface for concrete runs: connected, one message waiting to be sent,
and the feature with identifier 10 designated. -/
def sampleInterface : ComputerControlInterface where
  m_computer := { name := "pc1", hostAddress := "10.0.0.1", macAddress := "", location := "lab" }
  m_port := 11100
  m_updateMode := UpdateMode.Monitoring
  m_state := 7
  m_userLoginName := "alice"
  m_userFullName := "Alice A."
  m_userSessionId := 1
  m_activeFeatures := [10, 11]
  m_designatedModeFeature := 10
  m_scaledScreenSize := { width := 320, height := 200 }
  m_timestamp := 42
  m_connection := some { messageQueue := [{ featureUid := 11, command := 0, arguments := [] }] }
  m_connectionWatchdogTimer := { active := true, interval := 10000 }
  m_userUpdateTimer := { active := true, interval := 1000 }
  m_activeFeaturesUpdateTimer := { active := true, interval := 1000 }
  m_groups := ["lab"]

end ComputerControlInterface

/-! ## Properties of WtsSessionManager -/

namespace WtsSessionManager

/-- The loop of `activeSessions` appends, to the list it starts with, the
identifiers of the sessions that pass the test, in order. -/
theorem activeSessionsLoop_eq (os : Platform) (sessions : List WTS_SESSION_INFO)
    (sessionList : SessionList) :
    activeSessionsLoop os sessions sessionList =
      sessionList ++ (sessions.filter (isActiveOrMultiseat os)).map WTS_SESSION_INFO.SessionId := by
  induction sessions generalizing sessionList with
  | nil => simp [activeSessionsLoop]
  | cons session rest ih =>
    by_cases h : isActiveOrMultiseat os session = true
    · simp [activeSessionsLoop, h, ih]
    · simp [activeSessionsLoop, h, ih]

/-- The loop of `findWinlogonProcessId` returns the process id of the first
process that meets the three conditions, and the value it started with when
there is none. -/
theorem findWinlogonLoop_eq (os : Platform) (sessionId : SessionId)
    (processInfo : List WTS_PROCESS_INFO) (pid : ProcessId) :
    findWinlogonLoop os sessionId processInfo pid =
      match processInfo.find? (isWinlogonOf os sessionId) with
      | some process => process.ProcessId
      | none => pid := by
  induction processInfo with
  | nil => simp [findWinlogonLoop]
  | cons process rest ih =>
    by_cases h0 : process.ProcessId = 0
    · simp [findWinlogonLoop, isWinlogonOf, h0, ih, List.find?]
    · by_cases h1 : os.compareCaseInsensitive "winlogon.exe" process.pProcessName = 0 ∧
          sessionId = process.SessionId
      · simp [findWinlogonLoop, isWinlogonOf, h0, h1, List.find?]
      · have h2 : isWinlogonOf os sessionId process = false := by
          simp only [isWinlogonOf, Bool.and_assoc, Bool.and_eq_false_iff, decide_eq_false_iff_not]
          right
          by_cases hc : os.compareCaseInsensitive "winlogon.exe" process.pProcessName = 0
          · right
            exact fun hs => h1 ⟨hc, hs⟩
          · left
            exact hc
        simp [findWinlogonLoop, h0, h1, h2, ih, List.find?]

/-- Claim C1: `querySessionInformation` answers the empty string when the session
is `InvalidSession`, when the kind asked for is neither `UserName` nor
`DomainName`, and when the query of the operating system fails; when the
session is valid, the kind is `UserName` or `DomainName` and the query
succeeds, it answers the string of the operating system; and a non-empty
answer is always such a string. -/
theorem querySessionInformation_not_available (os : Platform) (sessionId : SessionId)
    (sessionInfo : SessionInfo) :
    (sessionId = os.InvalidSession → querySessionInformation os sessionId sessionInfo = "") ∧
    (sessionInfo ≠ SessionInfo.UserName → sessionInfo ≠ SessionInfo.DomainName →
      querySessionInformation os sessionId sessionInfo = "") ∧
    (sessionInfo = SessionInfo.UserName →
      os.WTSQuerySessionInformation sessionId WTS_INFO_CLASS.WTSUserName = none →
      querySessionInformation os sessionId sessionInfo = "") ∧
    (sessionInfo = SessionInfo.DomainName →
      os.WTSQuerySessionInformation sessionId WTS_INFO_CLASS.WTSDomainName = none →
      querySessionInformation os sessionId sessionInfo = "") ∧
    (∀ pBuffer : String, sessionId ≠ os.InvalidSession → sessionInfo = SessionInfo.UserName →
      os.WTSQuerySessionInformation sessionId WTS_INFO_CLASS.WTSUserName = some pBuffer →
      querySessionInformation os sessionId sessionInfo = pBuffer) ∧
    (∀ pBuffer : String, sessionId ≠ os.InvalidSession → sessionInfo = SessionInfo.DomainName →
      os.WTSQuerySessionInformation sessionId WTS_INFO_CLASS.WTSDomainName = some pBuffer →
      querySessionInformation os sessionId sessionInfo = pBuffer) ∧
    (querySessionInformation os sessionId sessionInfo ≠ "" →
      sessionId ≠ os.InvalidSession ∧
      ((sessionInfo = SessionInfo.UserName ∧
          os.WTSQuerySessionInformation sessionId WTS_INFO_CLASS.WTSUserName =
            some (querySessionInformation os sessionId sessionInfo)) ∨
        (sessionInfo = SessionInfo.DomainName ∧
          os.WTSQuerySessionInformation sessionId WTS_INFO_CLASS.WTSDomainName =
            some (querySessionInformation os sessionId sessionInfo)))) := by
  refine ⟨?_, ?_, ?_, ?_, ?_, ?_, ?_⟩
  · intro h
    simp [querySessionInformation, h]
  · intro hu hd
    cases sessionInfo with
    | UserName => exact absurd rfl hu
    | DomainName => exact absurd rfl hd
    | other code => simp [querySessionInformation]
  · intro hk hq
    subst hk
    simp [querySessionInformation, hq]
  · intro hk hq
    subst hk
    simp [querySessionInformation, hq]
  · intro pBuffer hs hk hq
    subst hk
    simp [querySessionInformation, hs, hq]
  · intro pBuffer hs hk hq
    subst hk
    simp [querySessionInformation, hs, hq]
  · intro hne
    by_cases hs : sessionId = os.InvalidSession
    · exact absurd (by simp [querySessionInformation, hs]) hne
    · refine ⟨hs, ?_⟩
      cases sessionInfo with
      | UserName =>
        left
        refine ⟨rfl, ?_⟩
        cases hq : os.WTSQuerySessionInformation sessionId WTS_INFO_CLASS.WTSUserName with
        | none => exact absurd (by simp [querySessionInformation, hq]) hne
        | some pBuffer => simp [querySessionInformation, hs, hq]
      | DomainName =>
        right
        refine ⟨rfl, ?_⟩
        cases hq : os.WTSQuerySessionInformation sessionId WTS_INFO_CLASS.WTSDomainName with
        | none => exact absurd (by simp [querySessionInformation, hq]) hne
        | some pBuffer => simp [querySessionInformation, hs, hq]
      | other code => exact absurd (by simp [querySessionInformation]) hne

/-- Claim C9: `activeSessions` is the empty list when the enumeration fails, and
otherwise the session identifiers, in enumeration order, of exactly the
sessions whose state is `WTSActive` or whose window station name compares
equal to `multiseat` without regard to case. -/
theorem activeSessions_is_filter (os : Platform) :
    (os.WTSEnumerateSessions = none → activeSessions os = []) ∧
    (∀ sessions : List WTS_SESSION_INFO, os.WTSEnumerateSessions = some sessions →
      activeSessions os =
        (sessions.filter (fun session =>
          decide (session.State = WTS_CONNECTSTATE_CLASS.WTSActive ∨
            os.compareCaseInsensitive session.pWinStationName "multiseat" = 0))).map
          WTS_SESSION_INFO.SessionId) := by
  constructor
  · intro h
    simp [activeSessions, h]
  · intro sessions h
    have hfilter : (fun session : WTS_SESSION_INFO =>
        decide (session.State = WTS_CONNECTSTATE_CLASS.WTSActive ∨
          os.compareCaseInsensitive session.pWinStationName "multiseat" = 0)) =
        isActiveOrMultiseat os := by
      funext session
      rw [Bool.eq_iff_iff]
      simp [isActiveOrMultiseat]
    rw [hfilter]
    simp [activeSessions, h, activeSessionsLoop_eq]

/-- Claim C10: `findWinlogonProcessId` returns `InvalidProcess` for
`InvalidSession` and when the enumeration fails; otherwise it returns the
process id of the lowest-index process whose id is non-zero, whose name is
`winlogon.exe` without regard to case and whose session is the one asked
for; a result other than `InvalidProcess` is always the id of such a process;
and, the enumeration holding no process whose id is the value of
`InvalidProcess` (an id the system does not assign), the result is
`InvalidProcess` exactly when no enumerated process meets the three
conditions. -/
theorem findWinlogonProcessId_first_match (os : Platform) (sessionId : SessionId) :
    (sessionId = os.InvalidSession → findWinlogonProcessId os sessionId = os.InvalidProcess) ∧
    (os.WTSEnumerateProcesses = none → findWinlogonProcessId os sessionId = os.InvalidProcess) ∧
    (∀ processInfo : List WTS_PROCESS_INFO, sessionId ≠ os.InvalidSession →
      os.WTSEnumerateProcesses = some processInfo →
      ((∀ process ∈ processInfo, isWinlogonOf os sessionId process = false) →
        findWinlogonProcessId os sessionId = os.InvalidProcess) ∧
      (∀ (index : Nat) (h : index < processInfo.length),
        isWinlogonOf os sessionId (processInfo.get ⟨index, h⟩) = true →
        (∀ (earlier : Nat) (h2 : earlier < processInfo.length), earlier < index →
          isWinlogonOf os sessionId (processInfo.get ⟨earlier, h2⟩) = false) →
        findWinlogonProcessId os sessionId = (processInfo.get ⟨index, h⟩).ProcessId) ∧
      (findWinlogonProcessId os sessionId ≠ os.InvalidProcess →
        ∃ process ∈ processInfo,
          process.ProcessId ≠ 0 ∧
          os.compareCaseInsensitive "winlogon.exe" process.pProcessName = 0 ∧
          sessionId = process.SessionId ∧
          findWinlogonProcessId os sessionId = process.ProcessId) ∧
      ((∀ process ∈ processInfo, process.ProcessId ≠ os.InvalidProcess) →
        (findWinlogonProcessId os sessionId = os.InvalidProcess ↔
          ∀ process ∈ processInfo,
            ¬ (process.ProcessId ≠ 0 ∧
              os.compareCaseInsensitive "winlogon.exe" process.pProcessName = 0 ∧
              sessionId = process.SessionId)))) := by
  refine ⟨?_, ?_, ?_⟩
  · intro h
    simp [findWinlogonProcessId, h]
  · intro h
    by_cases hs : sessionId = os.InvalidSession
    · simp [findWinlogonProcessId, hs]
    · simp [findWinlogonProcessId, hs, h]
  · intro processInfo hs he
    have hres : findWinlogonProcessId os sessionId =
        match processInfo.find? (isWinlogonOf os sessionId) with
        | some process => process.ProcessId
        | none => os.InvalidProcess := by
      simp [findWinlogonProcessId, hs, he, findWinlogonLoop_eq]
    refine ⟨?_, ?_, ?_, ?_⟩
    · intro hnone
      have hf : processInfo.find? (isWinlogonOf os sessionId) = none := by
        rw [List.find?_eq_none]
        intro process hmem
        simp [hnone process hmem]
      rw [hres, hf]
    · intro index h hmatch hearlier
      have hf : processInfo.find? (isWinlogonOf os sessionId) =
          some (processInfo.get ⟨index, h⟩) := by
        clear hres he
        induction processInfo generalizing index with
        | nil => exact absurd h (Nat.not_lt_zero _)
        | cons process rest ih =>
          cases index with
          | zero =>
            simp only [List.get] at hmatch ⊢
            simp [List.find?, hmatch]
          | succ k =>
            have h0 : isWinlogonOf os sessionId process = false :=
              hearlier 0 (Nat.zero_lt_succ _) (Nat.zero_lt_succ _)
            have hk : k < rest.length := Nat.lt_of_succ_lt_succ h
            have := ih k hk hmatch (fun earlier h2 hlt =>
              hearlier (earlier + 1) (Nat.succ_lt_succ h2) (Nat.succ_lt_succ hlt))
            simp only [List.get]
            simp [List.find?, h0, this]
      rw [hres, hf]
    · intro hne
      rw [hres] at hne ⊢
      cases hf : processInfo.find? (isWinlogonOf os sessionId) with
      | none => rw [hf] at hne; exact absurd rfl hne
      | some process =>
        have hmem := List.mem_of_find?_eq_some hf
        have hp := List.find?_some hf
        simp only [isWinlogonOf, Bool.and_eq_true, decide_eq_true_eq] at hp
        exact ⟨process, hmem, hp.1.1, hp.1.2, hp.2, rfl⟩
    · intro hsentinel
      rw [hres]
      constructor
      · intro hinvalid process hmem hmatch
        cases hf : processInfo.find? (isWinlogonOf os sessionId) with
        | none =>
          have hall := List.find?_eq_none.mp hf process hmem
          apply hall
          simp only [isWinlogonOf, Bool.and_eq_true, decide_eq_true_eq]
          exact ⟨⟨hmatch.1, hmatch.2.1⟩, hmatch.2.2⟩
        | some found =>
          rw [hf] at hinvalid
          exact hsentinel found (List.mem_of_find?_eq_some hf) hinvalid
      · intro hnone
        have hf : processInfo.find? (isWinlogonOf os sessionId) = none := by
          rw [List.find?_eq_none]
          intro process hmem hmatch
          simp only [isWinlogonOf, Bool.and_eq_true, decide_eq_true_eq] at hmatch
          exact hnone process hmem ⟨hmatch.1.1, hmatch.1.2, hmatch.2⟩
        rw [hf]

/-- Runs of claim C1 on the sample machine: a valid session asked for its user
name, a session the system does not answer, and the invalid session. -/
theorem querySessionInformation_not_available_witness :
    querySessionInformation samplePlatform 1 SessionInfo.UserName = "alice" ∧
    querySessionInformation samplePlatform 7 SessionInfo.UserName = "" ∧
    querySessionInformation samplePlatform 1 (SessionInfo.other 0) = "" ∧
    querySessionInformation samplePlatform 4294967295 SessionInfo.DomainName = "" :=
  ⟨(querySessionInformation_not_available samplePlatform 1 SessionInfo.UserName).2.2.2.2.1
      "alice" (by decide) rfl rfl,
    (querySessionInformation_not_available samplePlatform 7 SessionInfo.UserName).2.2.1 rfl rfl,
    (querySessionInformation_not_available samplePlatform 1 (SessionInfo.other 0)).2.1
      (by decide) (by decide),
    (querySessionInformation_not_available samplePlatform 4294967295 SessionInfo.DomainName).1
      rfl⟩

/-- A run of claim C9 on the sample machine: of five sessions the two active ones
and the connected `MultiSeat` one are listed, in order. -/
theorem activeSessions_is_filter_witness :
    activeSessions samplePlatform = [1, 2, 3] :=
  ((activeSessions_is_filter samplePlatform).2 _ rfl).trans (by decide)

/-- Runs of claim C10 on the sample machine, whose process table holds no
process with the id of `InvalidProcess`: for session 1 the process at index 3
is the first that meets the three conditions, so the result is not
`InvalidProcess`; for session 3 no process meets them and the result is
`InvalidProcess`. -/
theorem findWinlogonProcessId_first_match_witness :
    findWinlogonProcessId samplePlatform 1 = 700 ∧
    findWinlogonProcessId samplePlatform 3 = samplePlatform.InvalidProcess ∧
    (findWinlogonProcessId samplePlatform 1 ≠ samplePlatform.InvalidProcess) ∧
    (∀ process ∈ [({ SessionId := 0, ProcessId := 0, pProcessName := "winlogon.exe" } :
          WTS_PROCESS_INFO),
        { SessionId := 0, ProcessId := 4, pProcessName := "System" },
        { SessionId := 2, ProcessId := 612, pProcessName := "WinLogon.EXE" },
        { SessionId := 1, ProcessId := 700, pProcessName := "winlogon.exe" },
        { SessionId := 1, ProcessId := 704, pProcessName := "winlogon.exe" }],
      ¬ (process.ProcessId ≠ 0 ∧
        samplePlatform.compareCaseInsensitive "winlogon.exe" process.pProcessName = 0 ∧
        3 = process.SessionId)) :=
  ⟨((findWinlogonProcessId_first_match samplePlatform 1).2.2 _ (by decide) rfl).2.1 3
      (by decide) (by decide) (by decide),
    ((findWinlogonProcessId_first_match samplePlatform 3).2.2 _ (by decide) rfl).1
      (by decide),
    fun h => absurd
      ((((findWinlogonProcessId_first_match samplePlatform 1).2.2 _ (by decide) rfl).2.2.2
        (by decide)).mp h)
      (by decide),
    (((findWinlogonProcessId_first_match samplePlatform 3).2.2 _ (by decide) rfl).2.2.2
      (by decide)).mp (by decide)⟩

end WtsSessionManager

/-! ## Properties of ComputerControlInterface -/

namespace ComputerControlInterface

/-- Claim C5: `setDesignatedModeFeature(u)` changes the designated-mode field and
nothing else: afterwards `designatedModeFeature()` is `u`, and the connection
with its queue of messages, the state, the update mode, the user login name,
the user full name, the session id, the active features, the groups, the
scaled screen size, the timestamp, the computer and the timers are what they
were. -/
theorem setDesignatedModeFeature_frame (self : ComputerControlInterface) (u : Feature.Uid) :
    (self.setDesignatedModeFeature u).designatedModeFeature = u ∧
    (self.setDesignatedModeFeature u).connection = self.connection ∧
    (self.setDesignatedModeFeature u).state = self.state ∧
    (self.setDesignatedModeFeature u).updateMode = self.updateMode ∧
    (self.setDesignatedModeFeature u).userLoginName = self.userLoginName ∧
    (self.setDesignatedModeFeature u).userFullName = self.userFullName ∧
    (self.setDesignatedModeFeature u).userSessionId = self.userSessionId ∧
    (self.setDesignatedModeFeature u).activeFeatures = self.activeFeatures ∧
    (self.setDesignatedModeFeature u).groups = self.groups ∧
    (self.setDesignatedModeFeature u).scaledScreenSize = self.scaledScreenSize ∧
    (self.setDesignatedModeFeature u).timestamp = self.timestamp ∧
    (self.setDesignatedModeFeature u).computer = self.computer ∧
    (self.setDesignatedModeFeature u).m_port = self.m_port ∧
    (self.setDesignatedModeFeature u).m_connectionWatchdogTimer = self.m_connectionWatchdogTimer ∧
    (self.setDesignatedModeFeature u).m_userUpdateTimer = self.m_userUpdateTimer ∧
    (self.setDesignatedModeFeature u).m_activeFeaturesUpdateTimer =
      self.m_activeFeaturesUpdateTimer ∧
    (self.setDesignatedModeFeature u).setDesignatedModeFeature self.designatedModeFeature =
      self := by
  refine ⟨rfl, rfl, rfl, rfl, rfl, rfl, rfl, rfl, rfl, rfl, rfl, rfl, rfl, rfl, rfl, rfl, ?_⟩
  cases self
  rfl

/-- Claim C6, as it stands, fails: with the feature 10 designated, a call of
`setDesignatedModeFeature(20)` leaves 20 designated, not 10. -/
theorem setDesignatedModeFeature_overwrites_counterexample :
    sampleInterface.designatedModeFeature = 10 ∧ (10 : Feature.Uid) ≠ 0 ∧
    (20 : Feature.Uid) ≠ 10 ∧
    (sampleInterface.setDesignatedModeFeature 20).designatedModeFeature ≠ 10 ∧
    (sampleInterface.setDesignatedModeFeature 20).designatedModeFeature = 20 := by
  decide

/-- Claim C6, amended: while a non-null feature `A` is designated, a call of
`setDesignatedModeFeature(B)` with `B` different from `A` is neither rejected
nor queued by the setter: right afterwards `designatedModeFeature()` is `B`
and no longer `A`. -/
theorem setDesignatedModeFeature_overwrites (self : ComputerControlInterface)
    (A B : Feature.Uid) (hA : self.designatedModeFeature = A) (hnull : A ≠ 0) (hB : B ≠ A) :
    (self.setDesignatedModeFeature B).designatedModeFeature = B ∧
    (self.setDesignatedModeFeature B).designatedModeFeature ≠ A ∧
    (self.setDesignatedModeFeature B).designatedModeFeature ≠ self.designatedModeFeature ∧
    self.designatedModeFeature ≠ 0 := by
  subst hA
  exact ⟨rfl, hB, hB, hnull⟩

/-- A run of the amended claim C6 on the sample interface: feature 10 is
designated, feature 20 is set. -/
theorem setDesignatedModeFeature_overwrites_witness :
    (sampleInterface.setDesignatedModeFeature 20).designatedModeFeature = 20 ∧
    (sampleInterface.setDesignatedModeFeature 20).designatedModeFeature ≠ 10 ∧
    (sampleInterface.setDesignatedModeFeature 20).designatedModeFeature ≠
      sampleInterface.designatedModeFeature ∧
    sampleInterface.designatedModeFeature ≠ 0 :=
  setDesignatedModeFeature_overwrites sampleInterface 10 20 (by decide) (by decide) (by decide)

/-- Claim C7: the connection watchdog timeout is 10000 ms and the update interval
used in the disabled update mode is 5000 ms. -/
theorem timer_constants :
    ConnectionWatchdogTimeout = 10000 ∧ UpdateIntervalDisabled = 5000 :=
  ⟨rfl, rfl⟩

end ComputerControlInterface

/-! ## Properties of LdapNetworkObjectDirectory -/

namespace NetworkObjectProperties

/-- After `properties[key] = value` the map contains the key. -/
theorem containsKey_set_self (properties : NetworkObjectProperties) (key value : String) :
    (properties.set key value).containsKey key = true := by
  induction properties with
  | nil => simp [set, containsKey]
  | cons entry rest ih =>
    obtain ⟨k, v⟩ := entry
    by_cases h : k = key
    · simp [set, containsKey, h]
    · simp only [set, h, if_false]
      simp only [containsKey, List.any_cons] at ih ⊢
      simp [ih]

/-- An assignment keeps the keys the map already contains. -/
theorem containsKey_set_of_containsKey (properties : NetworkObjectProperties)
    (key value other : String) (h : properties.containsKey other = true) :
    (properties.set key value).containsKey other = true := by
  induction properties with
  | nil => simp [containsKey] at h
  | cons entry rest ih =>
    obtain ⟨k, v⟩ := entry
    by_cases hk : k = key
    · simp only [set, hk, if_true]
      simp only [containsKey, List.any_cons, Bool.or_eq_true, decide_eq_true_eq] at h ⊢
      rcases h with h | h
      · left; rw [← hk]; exact h
      · right; exact h
    · simp only [set, hk, if_false]
      simp only [containsKey, List.any_cons, Bool.or_eq_true, decide_eq_true_eq] at h ih ⊢
      rcases h with h | h
      · left; exact h
      · right; exact ih h

/-- An assignment to one key does not add another key. -/
theorem containsKey_set_of_ne (properties : NetworkObjectProperties)
    (key value other : String) (hne : other ≠ key) :
    (properties.set key value).containsKey other = properties.containsKey other := by
  induction properties with
  | nil =>
    simp only [set, containsKey, List.any_cons, List.any_nil, Bool.or_false]
    simp [Ne.symm hne]
  | cons entry rest ih =>
    obtain ⟨k, v⟩ := entry
    by_cases hk : k = key
    · simp [set, containsKey, hk]
    · simp only [set, hk, if_false]
      simp only [containsKey, List.any_cons] at ih ⊢
      rw [ih]

/-- After `properties[key] = value` the key holds the value. -/
theorem valueOf_set_self (properties : NetworkObjectProperties) (key value : String) :
    (properties.set key value).valueOf key = some value := by
  induction properties with
  | nil => simp [set, valueOf]
  | cons entry rest ih =>
    obtain ⟨k, v⟩ := entry
    by_cases h : k = key
    · simp [set, valueOf, h]
    · simp [set, valueOf, h, ih]

/-- An assignment to one key leaves the value of every other key. -/
theorem valueOf_set_of_ne (properties : NetworkObjectProperties)
    (key value other : String) (hne : other ≠ key) :
    (properties.set key value).valueOf other = properties.valueOf other := by
  induction properties with
  | nil => simp [set, valueOf, Ne.symm hne]
  | cons entry rest ih =>
    obtain ⟨k, v⟩ := entry
    by_cases hk : k = key
    · subst hk
      simp [set, valueOf, Ne.symm hne]
    · by_cases hko : k = other
      · subst hko
        simp [set, valueOf, hk]
      · simp [set, valueOf, hk, hko, ih]

end NetworkObjectProperties

namespace LdapNetworkObjectDirectory

/-- The loop of `queryHosts` appends, to the list it starts with, the valid
objects of the distinguished names, in order. -/
theorem queryHostsLoop_eq (propertyKey : NetworkObjectProperty → String)
    (ldapDirectory : LdapDirectory) (computers : List String) (hostObjects : NetworkObjectList) :
    queryHostsLoop propertyKey ldapDirectory computers hostObjects =
      hostObjects ++
        (computers.map (computerToObject propertyKey ldapDirectory)).filter NetworkObject.isValid := by
  induction computers generalizing hostObjects with
  | nil => simp [queryHostsLoop]
  | cons computer rest ih =>
    by_cases h : (computerToObject propertyKey ldapDirectory computer).isValid = true
    · simp [queryHostsLoop, h, ih]
    · simp [queryHostsLoop, h, ih]

/-- Claim C2, as it stands, fails: with no hardware address attribute configured,
the object of a computer the look-up finds has no `MacAddress` property. -/
theorem computerToObject_mac_counterexample :
    lookupComputer sampleDirectory "cn=pc1,ou=lab" =
      [("cn=pc1,ou=lab", [("cn", ["pc1"]), ("macAddress", ["00:11:22:33:44:55"])])] ∧
    (computerToObject sampleKey sampleDirectory "cn=pc1,ou=lab").type = NetworkObjectType.Host ∧
    (computerToObject sampleKey sampleDirectory "cn=pc1,ou=lab").properties.containsKey
      (sampleKey NetworkObjectProperty.MacAddress) = false ∧
    (computerToObject sampleKey sampleDirectory "cn=pc1,ou=lab").properties =
      [("HostAddress", "pc1"), ("DirectoryAddress", "cn=pc1,ou=lab")] := by
  decide

/-- Claim C2, amended: for a distinguished name whose base-scope look-up returns
an entry, `computerToObject` returns a `Host` object whose name is the
display name and whose properties contain `HostAddress` and
`DirectoryAddress`, the latter being the key of the entry found;
`MacAddress` is among them when a hardware address attribute is configured,
and is not when none is configured. -/
theorem computerToObject_record (propertyKey : NetworkObjectProperty → String)
    (ldapDirectory : LdapDirectory) (computerDn foundDn : String) (computer : LdapObject)
    (others : LdapObjects)
    (hfound : lookupComputer ldapDirectory computerDn = (foundDn, computer) :: others) :
    (computerToObject propertyKey ldapDirectory computerDn).type = NetworkObjectType.Host ∧
    (computerToObject propertyKey ldapDirectory computerDn).name =
      displayNameOf ldapDirectory computer ∧
    (computerToObject propertyKey ldapDirectory computerDn).properties.containsKey
      (propertyKey NetworkObjectProperty.HostAddress) = true ∧
    (computerToObject propertyKey ldapDirectory computerDn).properties.containsKey
      (propertyKey NetworkObjectProperty.DirectoryAddress) = true ∧
    (computerToObject propertyKey ldapDirectory computerDn).properties.valueOf
      (propertyKey NetworkObjectProperty.DirectoryAddress) = some foundDn ∧
    (ldapDirectory.computerMacAddressAttribute ≠ "" →
      (computerToObject propertyKey ldapDirectory computerDn).properties.containsKey
        (propertyKey NetworkObjectProperty.MacAddress) = true) ∧
    (ldapDirectory.computerMacAddressAttribute = "" →
      propertyKey NetworkObjectProperty.MacAddress ≠
        propertyKey NetworkObjectProperty.HostAddress →
      propertyKey NetworkObjectProperty.MacAddress ≠
        propertyKey NetworkObjectProperty.DirectoryAddress →
      (computerToObject propertyKey ldapDirectory computerDn).properties.containsKey
        (propertyKey NetworkObjectProperty.MacAddress) = false) := by
  have hobj : computerToObject propertyKey ldapDirectory computerDn =
      { type := NetworkObjectType.Host
        name := displayNameOf ldapDirectory computer
        properties := hostProperties propertyKey ldapDirectory foundDn computer } := by
    simp [computerToObject, hfound]
  rw [hobj]
  refine ⟨rfl, rfl, ?_, ?_, ?_, ?_, ?_⟩
  · simp only [hostProperties]
    apply NetworkObjectProperties.containsKey_set_of_containsKey
    split
    · apply NetworkObjectProperties.containsKey_set_of_containsKey
      exact NetworkObjectProperties.containsKey_set_self _ _ _
    · exact NetworkObjectProperties.containsKey_set_self _ _ _
  · simp only [hostProperties]
    exact NetworkObjectProperties.containsKey_set_self _ _ _
  · simp only [hostProperties]
    exact NetworkObjectProperties.valueOf_set_self _ _ _
  · intro hmac
    simp only [hostProperties, hmac, ne_eq, not_false_eq_true, if_true]
    apply NetworkObjectProperties.containsKey_set_of_containsKey
    exact NetworkObjectProperties.containsKey_set_self _ _ _
  · intro hmac hh hd
    simp only [hostProperties, hmac, ne_eq, not_true_eq_false, if_false]
    rw [NetworkObjectProperties.containsKey_set_of_ne _ _ _ _ hd,
      NetworkObjectProperties.containsKey_set_of_ne _ _ _ _ hh]
    rfl

/-- A run of the amended claim C2 on the sample directory with the hardware
address attribute configured. -/
theorem computerToObject_record_witness :
    (computerToObject sampleKey sampleDirectoryWithMac "cn=pc1,ou=lab").type =
      NetworkObjectType.Host ∧
    (computerToObject sampleKey sampleDirectoryWithMac "cn=pc1,ou=lab").name =
      displayNameOf sampleDirectoryWithMac
        [("cn", ["pc1"]), ("macAddress", ["00:11:22:33:44:55"])] ∧
    (computerToObject sampleKey sampleDirectoryWithMac "cn=pc1,ou=lab").properties.containsKey
      (sampleKey NetworkObjectProperty.HostAddress) = true ∧
    (computerToObject sampleKey sampleDirectoryWithMac "cn=pc1,ou=lab").properties.containsKey
      (sampleKey NetworkObjectProperty.DirectoryAddress) = true ∧
    (computerToObject sampleKey sampleDirectoryWithMac "cn=pc1,ou=lab").properties.valueOf
      (sampleKey NetworkObjectProperty.DirectoryAddress) = some "cn=pc1,ou=lab" ∧
    (sampleDirectoryWithMac.computerMacAddressAttribute ≠ "" →
      (computerToObject sampleKey sampleDirectoryWithMac "cn=pc1,ou=lab").properties.containsKey
        (sampleKey NetworkObjectProperty.MacAddress) = true) ∧
    (sampleDirectoryWithMac.computerMacAddressAttribute = "" →
      sampleKey NetworkObjectProperty.MacAddress ≠
        sampleKey NetworkObjectProperty.HostAddress →
      sampleKey NetworkObjectProperty.MacAddress ≠
        sampleKey NetworkObjectProperty.DirectoryAddress →
      (computerToObject sampleKey sampleDirectoryWithMac "cn=pc1,ou=lab").properties.containsKey
        (sampleKey NetworkObjectProperty.MacAddress) = false) :=
  computerToObject_record sampleKey sampleDirectoryWithMac "cn=pc1,ou=lab" "cn=pc1,ou=lab"
    [("cn", ["pc1"]), ("macAddress", ["00:11:22:33:44:55"])] [] (by decide)

/-- Claim C3: `queryHosts` returns, in order, exactly the valid objects
`computerToObject` gives for the distinguished names the directory returned:
no object of type `None` is in the result, the result is no longer than the
list of names, and it is empty for a property other than `None`, `Name` and
`HostAddress` and for a `HostAddress` whose host name in LDAP format is
empty. -/
theorem queryHosts_valid_subsequence (propertyKey : NetworkObjectProperty → String)
    (ldapDirectory : LdapDirectory) (property : NetworkObjectProperty) (value : QVariant) :
    (property = NetworkObjectProperty.None →
      queryHosts propertyKey ldapDirectory property value =
        ((ldapDirectory.computersByHostName "").map
          (computerToObject propertyKey ldapDirectory)).filter NetworkObject.isValid) ∧
    (property = NetworkObjectProperty.Name →
      queryHosts propertyKey ldapDirectory property value =
        ((ldapDirectory.computersByDisplayName value.toString).map
          (computerToObject propertyKey ldapDirectory)).filter NetworkObject.isValid) ∧
    (property = NetworkObjectProperty.HostAddress →
      ldapDirectory.hostToLdapFormat value.toString ≠ "" →
      queryHosts propertyKey ldapDirectory property value =
        ((ldapDirectory.computersByHostName
            (ldapDirectory.hostToLdapFormat value.toString)).map
          (computerToObject propertyKey ldapDirectory)).filter NetworkObject.isValid) ∧
    (property = NetworkObjectProperty.HostAddress →
      ldapDirectory.hostToLdapFormat value.toString = "" →
      queryHosts propertyKey ldapDirectory property value = []) ∧
    (property ≠ NetworkObjectProperty.None → property ≠ NetworkObjectProperty.Name →
      property ≠ NetworkObjectProperty.HostAddress →
      queryHosts propertyKey ldapDirectory property value = []) ∧
    (∀ object ∈ queryHosts propertyKey ldapDirectory property value,
      object.type ≠ NetworkObjectType.None) ∧
    (queryHosts propertyKey ldapDirectory property value).length ≤
      ((queryHostsComputers ldapDirectory property value).getD []).length ∧
    (queryHosts propertyKey ldapDirectory property value).Sublist
      (((queryHostsComputers ldapDirectory property value).getD []).map
        (computerToObject propertyKey ldapDirectory)) := by
  have hgen : queryHosts propertyKey ldapDirectory property value =
      (((queryHostsComputers ldapDirectory property value).getD []).map
        (computerToObject propertyKey ldapDirectory)).filter NetworkObject.isValid := by
    unfold queryHosts
    cases queryHostsComputers ldapDirectory property value with
    | none => simp
    | some computers => simp [queryHostsLoop_eq]
  refine ⟨?_, ?_, ?_, ?_, ?_, ?_, ?_, ?_⟩
  · intro hp
    subst hp
    rw [hgen]
    simp [queryHostsComputers]
  · intro hp
    subst hp
    rw [hgen]
    simp [queryHostsComputers]
  · intro hp hhost
    subst hp
    rw [hgen]
    simp [queryHostsComputers, hhost]
  · intro hp hhost
    subst hp
    rw [hgen]
    simp [queryHostsComputers, hhost]
  · intro hn hname hhost
    rw [hgen]
    cases property with
    | None => exact absurd rfl hn
    | Name => exact absurd rfl hname
    | HostAddress => exact absurd rfl hhost
    | MacAddress => simp [queryHostsComputers]
    | DirectoryAddress => simp [queryHostsComputers]
    | other code => simp [queryHostsComputers]
  · intro object hmem
    rw [hgen] at hmem
    have hvalid := (List.mem_filter.mp hmem).2
    simpa [NetworkObject.isValid] using hvalid
  · rw [hgen]
    calc (List.filter NetworkObject.isValid
            (((queryHostsComputers ldapDirectory property value).getD []).map
              (computerToObject propertyKey ldapDirectory))).length
        ≤ (((queryHostsComputers ldapDirectory property value).getD []).map
              (computerToObject propertyKey ldapDirectory)).length := List.length_filter_le _ _
      _ = ((queryHostsComputers ldapDirectory property value).getD []).length :=
          List.length_map _ _
  · rw [hgen]
    exact List.filter_sublist _

/-- Two objects that stand for the same node have the same type. -/
theorem sameObject_type (propertyKey : NetworkObjectProperty → String) (a b : NetworkObject)
    (h : sameObject propertyKey a b = true) : a.type = b.type := by
  simp only [sameObject, Bool.and_eq_true, decide_eq_true_eq] at h
  exact h.1

/-- Two objects that stand for the same node and are not hosts have the same
name. -/
theorem sameObject_name (propertyKey : NetworkObjectProperty → String) (a b : NetworkObject)
    (h : sameObject propertyKey a b = true) (hhost : a.type ≠ NetworkObjectType.Host) :
    a.name = b.name := by
  simp only [sameObject, Bool.and_eq_true, decide_eq_true_eq, hhost, if_false] at h
  exact h.2

/-- Every object stands for the same node as itself. -/
theorem sameObject_refl (propertyKey : NetworkObjectProperty → String) (a : NetworkObject) :
    sameObject propertyKey a a = true := by
  simp [sameObject]

/-- The children of a parent are what `setChildren` has set for it. -/
theorem childrenOf_setChildren_self (propertyKey : NetworkObjectProperty → String)
    (tree : ObjectTree) (parent : NetworkObject) (children : NetworkObjectList) :
    childrenOf propertyKey (setChildren propertyKey tree parent children) parent = children := by
  induction tree with
  | nil => simp [setChildren, childrenOf, sameObject_refl]
  | cons entry rest ih =>
    obtain ⟨node, old⟩ := entry
    by_cases h : sameObject propertyKey node parent = true
    · simp [setChildren, childrenOf, h]
    · simp [setChildren, childrenOf, h, ih]

/-- Setting the children of one parent leaves the children of a parent of another
type. -/
theorem childrenOf_setChildren_other (propertyKey : NetworkObjectProperty → String)
    (tree : ObjectTree) (parent other : NetworkObject) (children : NetworkObjectList)
    (htype : parent.type ≠ other.type) :
    childrenOf propertyKey (setChildren propertyKey tree parent children) other =
      childrenOf propertyKey tree other := by
  have hpo : sameObject propertyKey parent other = false := by
    cases hs : sameObject propertyKey parent other with
    | false => rfl
    | true => exact absurd (sameObject_type propertyKey _ _ hs) htype
  induction tree with
  | nil => simp [setChildren, childrenOf, hpo]
  | cons entry rest ih =>
    obtain ⟨node, old⟩ := entry
    by_cases h : sameObject propertyKey node parent = true
    · have hno : sameObject propertyKey node other = false := by
        cases hs : sameObject propertyKey node other with
        | false => rfl
        | true =>
          have h1 := sameObject_type propertyKey _ _ h
          have h2 := sameObject_type propertyKey _ _ hs
          exact absurd (h1.symm.trans h2) htype
      simp [setChildren, childrenOf, h, hno]
    · by_cases hno : sameObject propertyKey node other = true
      · simp [setChildren, childrenOf, h, hno]
      · simp [setChildren, childrenOf, h, hno, ih]

/-- A name is among the location names of a list exactly when the list holds a
location object of that name. -/
theorem mem_locationNames (children : NetworkObjectList) (name : String) :
    name ∈ locationNames children ↔
      ∃ object ∈ children, object.type = NetworkObjectType.Location ∧ object.name = name := by
  simp only [locationNames, List.mem_map, List.mem_filter, decide_eq_true_eq]
  constructor
  · rintro ⟨object, ⟨hmem, htype⟩, hname⟩
    exact ⟨object, hmem, htype, hname⟩
  · rintro ⟨object, hmem, htype, hname⟩
    exact ⟨object, ⟨hmem, htype⟩, hname⟩

/-- After insert-or-replace the object is among the children. -/
theorem mem_insertOrReplace (propertyKey : NetworkObjectProperty → String)
    (object : NetworkObject) (children : NetworkObjectList) :
    object ∈ insertOrReplace propertyKey object children := by
  induction children with
  | nil => simp [insertOrReplace]
  | cons child rest ih =>
    by_cases h : sameObject propertyKey child object = true
    · simp [insertOrReplace, h]
    · simp only [insertOrReplace, h, if_false]
      exact List.mem_cons_of_mem _ ih

/-- Insert-or-replace keeps every location name the children had: a replaced
location is replaced by a location of the same name. -/
theorem locationNames_insertOrReplace (propertyKey : NetworkObjectProperty → String)
    (object : NetworkObject) (children : NetworkObjectList) (name : String)
    (h : name ∈ locationNames children) :
    name ∈ locationNames (insertOrReplace propertyKey object children) := by
  rw [mem_locationNames] at h ⊢
  obtain ⟨found, hmem, htype, hname⟩ := h
  induction children with
  | nil => exact absurd hmem (List.not_mem_nil _)
  | cons child rest ih =>
    by_cases hs : sameObject propertyKey child object = true
    · simp only [insertOrReplace, hs, if_true]
      rcases List.mem_cons.mp hmem with heq | hrest
      · subst heq
        have ht := sameObject_type propertyKey _ _ hs
        have hn := sameObject_name propertyKey _ _ hs (by rw [htype]; decide)
        exact ⟨object, List.mem_cons_self _ _, ht ▸ htype, hn ▸ hname⟩
      · exact ⟨found, List.mem_cons_of_mem _ hrest, htype, hname⟩
    · simp only [insertOrReplace, hs, if_false]
      rcases List.mem_cons.mp hmem with heq | hrest
      · exact ⟨found, heq ▸ List.mem_cons_self _ _, htype, hname⟩
      · obtain ⟨o, ho, hto, hno⟩ := ih hrest
        exact ⟨o, List.mem_cons_of_mem _ ho, hto, hno⟩

/-- The loop of `updateLocation` for a location object leaves the children of the
root. -/
theorem childrenOf_root_updateLocationLoop (propertyKey : NetworkObjectProperty → String)
    (ldapDirectory : LdapDirectory) (locationObject : NetworkObject)
    (hloc : locationObject.type = NetworkObjectType.Location)
    (computers : List String) (tree : ObjectTree) :
    childrenOf propertyKey
        (updateLocationLoop propertyKey ldapDirectory locationObject computers tree) rootObject =
      childrenOf propertyKey tree rootObject := by
  have hne : locationObject.type ≠ rootObject.type := by
    rw [hloc]; decide
  induction computers generalizing tree with
  | nil => rfl
  | cons computer rest ih =>
    by_cases h : (computerToObject propertyKey ldapDirectory computer).type =
        NetworkObjectType.Host
    · simp only [updateLocationLoop, h, if_true]
      rw [ih]
      exact childrenOf_setChildren_other propertyKey tree locationObject rootObject _ hne
    · simp only [updateLocationLoop, h, if_false]
      exact ih tree

/-- `updateLocation` for a location object leaves the children of the root. -/
theorem childrenOf_root_updateLocation (propertyKey : NetworkObjectProperty → String)
    (ldapDirectory : LdapDirectory) (tree : ObjectTree) (locationObject : NetworkObject)
    (hloc : locationObject.type = NetworkObjectType.Location) :
    childrenOf propertyKey (updateLocation propertyKey ldapDirectory tree locationObject)
        rootObject =
      childrenOf propertyKey tree rootObject := by
  have hne : locationObject.type ≠ rootObject.type := by
    rw [hloc]; decide
  simp only [updateLocation, removeObjects]
  rw [childrenOf_setChildren_other propertyKey _ locationObject rootObject _ hne]
  exact childrenOf_root_updateLocationLoop propertyKey ldapDirectory locationObject hloc _ tree

/-- The loop of `update` keeps the location names under the root and adds the
names of the locations it runs over. -/
theorem rootLocationNames_updateLoop (propertyKey : NetworkObjectProperty → String)
    (ldapDirectory : LdapDirectory) (locations : List String) (tree : ObjectTree)
    (name : String)
    (h : name ∈ rootLocationNames propertyKey tree ∨ name ∈ locations) :
    name ∈ rootLocationNames propertyKey (updateLoop propertyKey ldapDirectory locations tree) := by
  induction locations generalizing tree with
  | nil =>
    rcases h with h | h
    · exact h
    · exact absurd h (List.not_mem_nil _)
  | cons location rest ih =>
    simp only [updateLoop]
    apply ih
    have hstep : rootLocationNames propertyKey
        (updateLocation propertyKey ldapDirectory
          (addOrUpdateObject propertyKey tree
            (NetworkObject.named NetworkObjectType.Location location) rootObject)
          (NetworkObject.named NetworkObjectType.Location location)) =
        locationNames (insertOrReplace propertyKey
          (NetworkObject.named NetworkObjectType.Location location)
          (childrenOf propertyKey tree rootObject)) := by
      simp only [rootLocationNames]
      rw [childrenOf_root_updateLocation propertyKey ldapDirectory _ _ rfl]
      simp only [addOrUpdateObject]
      rw [childrenOf_setChildren_self]
    rw [hstep]
    rcases h with h | h
    · left
      exact locationNames_insertOrReplace propertyKey _ _ name h
    · rcases List.mem_cons.mp h with heq | hrest
      · left
        rw [mem_locationNames]
        exact ⟨NetworkObject.named NetworkObjectType.Location location,
          mem_insertOrReplace propertyKey _ _, rfl, heq.symm⟩
      · right
        exact hrest

/-- Claim C4: with `addOrUpdateObject` as insert-or-replace under the parent and
`removeObjects` as removal of the children of the parent that satisfy the
predicate, after `update()` the location objects directly under the root are
exactly the locations the directory reports: every reported location is
there, and no location with a name that is not reported remains. -/
theorem update_synchronises_locations (propertyKey : NetworkObjectProperty → String)
    (ldapDirectory : LdapDirectory) (tree : ObjectTree) :
    (∀ location ∈ ldapDirectory.computerLocations,
      ∃ object ∈ childrenOf propertyKey (update propertyKey ldapDirectory tree) rootObject,
        object.type = NetworkObjectType.Location ∧ object.name = location) ∧
    (∀ object ∈ childrenOf propertyKey (update propertyKey ldapDirectory tree) rootObject,
      object.type = NetworkObjectType.Location →
        object.name ∈ ldapDirectory.computerLocations) ∧
    (∀ name : String, name ∈ rootLocationNames propertyKey (update propertyKey ldapDirectory tree) ↔
      name ∈ ldapDirectory.computerLocations) := by
  have hchildren : childrenOf propertyKey (update propertyKey ldapDirectory tree) rootObject =
      (childrenOf propertyKey
        (updateLoop propertyKey ldapDirectory ldapDirectory.computerLocations tree)
        rootObject).filter (fun object =>
          !(decide (object.type = NetworkObjectType.Location) &&
            !ldapDirectory.computerLocations.contains object.name)) := by
    simp only [update, removeObjects]
    rw [childrenOf_setChildren_self]
  have hpresent : ∀ location ∈ ldapDirectory.computerLocations,
      ∃ object ∈ childrenOf propertyKey (update propertyKey ldapDirectory tree) rootObject,
        object.type = NetworkObjectType.Location ∧ object.name = location := by
    intro location hmem
    have hloop := rootLocationNames_updateLoop propertyKey ldapDirectory
      ldapDirectory.computerLocations tree location (Or.inr hmem)
    rw [rootLocationNames, mem_locationNames] at hloop
    obtain ⟨object, hobj, htype, hname⟩ := hloop
    refine ⟨object, ?_, htype, hname⟩
    rw [hchildren, List.mem_filter]
    refine ⟨hobj, ?_⟩
    simp [htype, hname, hmem]
  have hreported : ∀ object ∈
      childrenOf propertyKey (update propertyKey ldapDirectory tree) rootObject,
      object.type = NetworkObjectType.Location →
        object.name ∈ ldapDirectory.computerLocations := by
    intro object hmem htype
    rw [hchildren, List.mem_filter] at hmem
    have hkeep := hmem.2
    simpa [htype] using hkeep
  refine ⟨hpresent, hreported, ?_⟩
  intro name
  rw [rootLocationNames, mem_locationNames]
  constructor
  · rintro ⟨object, hmem, htype, hname⟩
    exact hname ▸ hreported object hmem htype
  · intro hmem
    exact hpresent name hmem

/-- A run of claim C3 on the sample directory: of the three names the directory
returns, the two that have an entry give the result. -/
theorem queryHosts_valid_subsequence_witness :
    (queryHosts sampleKey sampleDirectory NetworkObjectProperty.None ⟨""⟩).map
        NetworkObject.name = ["pc1", "pc2"] ∧
    queryHosts sampleKey sampleDirectory NetworkObjectProperty.HostAddress ⟨"10.0.0.9"⟩ = [] ∧
    queryHosts sampleKey sampleDirectory NetworkObjectProperty.MacAddress ⟨"pc1"⟩ = [] :=
  ⟨(congrArg (List.map NetworkObject.name)
      ((queryHosts_valid_subsequence sampleKey sampleDirectory NetworkObjectProperty.None
        ⟨""⟩).1 rfl)).trans (by decide),
    (queryHosts_valid_subsequence sampleKey sampleDirectory NetworkObjectProperty.HostAddress
      ⟨"10.0.0.9"⟩).2.2.2.1 rfl (by decide),
    (queryHosts_valid_subsequence sampleKey sampleDirectory NetworkObjectProperty.MacAddress
      ⟨"pc1"⟩).2.2.2.2.1 (by decide) (by decide) (by decide)⟩

/-- A run of claim C4 on the sample tree: the reported locations `lab` and
`library` are under the root afterwards, the location `attic` is not. -/
theorem update_synchronises_locations_witness :
    "lab" ∈ rootLocationNames sampleKey (update sampleKey sampleDirectory sampleTree) ∧
    "library" ∈ rootLocationNames sampleKey (update sampleKey sampleDirectory sampleTree) ∧
    "attic" ∉ rootLocationNames sampleKey (update sampleKey sampleDirectory sampleTree) :=
  ⟨((update_synchronises_locations sampleKey sampleDirectory sampleTree).2.2 "lab").mpr
      (by decide),
    ((update_synchronises_locations sampleKey sampleDirectory sampleTree).2.2 "library").mpr
      (by decide),
    fun h => absurd
      (((update_synchronises_locations sampleKey sampleDirectory sampleTree).2.2 "attic").mp h)
      (by decide)⟩

end LdapNetworkObjectDirectory
